import Mathlib

set_option maxRecDepth 40000

/-!
Verification of the auto-investor decision and risk pipeline.

This file gives a shallow embedding, in Lean 4, of the two core modules of
the `auto_investor` package:

* `indicators.py` — the technical-indicator engine (`compute_indicators`
  and its helpers `_rsi`, `_macd`, `_ema`, `_bollinger`, `_atr`, `_streak`);
* `risk/__init__.py` — the `RiskManager` guardrail engine (`evaluate`,
  `_circuit_breaker_triggered`, `_check_decision`, `_check_buy`,
  `_check_sell`).

Modelling conventions:

* Python floats are embedded as exact rationals (`ℚ`); Python ints as `ℤ`
  or `ℕ`.  Floating-point rounding is abstracted away.
* Python's fixed-precision string formatting (`f"{x:.2f}"` etc.) is
  abstracted: indicator values and veto-reason payloads carry the exact
  rational value instead of its rounded decimal rendering.
* The Bollinger band width `upper - lower = 4·σ` involves a square root,
  which is irrational; band values are carried symbolically as
  `(middle, k, variance)` meaning `middle + k·√variance`, and the strict
  comparisons `current > upper` / `current < lower` are decided by sign
  analysis and squaring, which is exact.
* The single place where the Python code can raise a `ZeroDivisionError`
  (the Bollinger in-band percentage, dividing by `upper - lower`) is
  modelled by an `Option` result: `none` models the raised exception.
* `datetime.now()` in the minimum-hold check is modelled by an explicit
  `now : ℚ` parameter (minutes on an abstract clock); timestamps returned
  by the data store are rationals on the same clock.
* Python dicts are modelled as association lists in insertion order.
-/

namespace AutoInvestor

/-! ### Data model (`models/__init__.py`) -/

/-- Source `DailyBar`: single day OHLCV bar. -/
structure DailyBar where
  date : String
  «open» : ℚ
  high : ℚ
  low : ℚ
  close : ℚ
  volume : ℤ
deriving DecidableEq, Repr

/-! ### Indicator values

Each constructor mirrors one of the f-string shapes used by
`indicators.py`, carrying the exact numeric payload instead of its
decimal rendering. -/

inductive IndVal where
  /-- a plain formatted number (`f"{x:.2f}"`, `f"{x:.4f}"`, `f"{x:.1f}"`). -/
  | num (q : ℚ)
  /-- a percentage (`f"{x:.1f}%"`, `f"{x:.0f}%"`). -/
  | pct (q : ℚ)
  /-- a fixed label such as `"OVERBOUGHT"` or `"BULLISH"`. -/
  | label (s : String)
  /-- a Bollinger band value `middle + k·√variance`. -/
  | bb (middle : ℚ) (k : ℤ) (variance : ℚ)
  /-- the Bollinger `"IN_BAND ({pct:.0f}%)"` value, carried symbolically:
      the percentage is `(current - lower)/(upper - lower) · 100`. -/
  | inBand (current middle variance : ℚ)
  /-- a volume ratio `f"{r:.1f}x"`. -/
  | ratio (q : ℚ)
  /-- a gap report `f"{direction} {abs(gap):.1f}%"`. -/
  | gap (direction : String) (q : ℚ)
  /-- a streak report `f"{n} days {direction}"`. -/
  | streakDays (n : ℕ) (direction : String)
deriving DecidableEq, Repr

/-! ### List helpers mirroring Python slicing -/

/-- Python `l[-n:]` for `n > 0`: the last `n` elements (all of `l` if shorter). -/
def takeLast {α : Type} (n : ℕ) (l : List α) : List α :=
  l.drop (l.length - n)

/-- Python `l[-1]`; total with default `0`, callers guard nonemptiness. -/
def lastD (l : List ℚ) : ℚ :=
  l.getLast?.getD 0

/-! ### `_ema` (indicators.py:202-210) -/

/-- One step of the EMA recurrence: `(val - prev) * multiplier + prev`. -/
def emaStep (multiplier prev val : ℚ) : ℚ :=
  (val - prev) * multiplier + prev

/-- The loop `for val in values[period:]: ema.append(...)`. -/
def emaRun (multiplier : ℚ) (prev : ℚ) : List ℚ → List ℚ
  | [] => []
  | v :: vs =>
    let e := emaStep multiplier prev v
    e :: emaRun multiplier e vs

/-- Source `_ema(values, period)`: seeds with the simple mean of the first
`period` values, then applies the EMA recurrence to the rest.  Returns
`values` unchanged when it is shorter than `period`. -/
def _ema (values : List ℚ) (period : ℕ) : List ℚ :=
  if values.length < period then values
  else
    let multiplier : ℚ := 2 / ((period : ℚ) + 1)
    let seed : ℚ := (values.take period).sum / (period : ℚ)
    seed :: emaRun multiplier seed (values.drop period)

/-! ### `_macd` (indicators.py:183-199) -/

/-- The `macd_series` of `_macd`: `[f - s for f, s in zip(ema_fast[-slow:], ema_slow)]`. -/
def macdSeries (closes : List ℚ) (fast slow : ℕ) : List ℚ :=
  List.zipWith (fun f s => f - s) (takeLast slow (_ema closes fast)) (_ema closes slow)

/-- Source `_macd(closes, fast, slow, signal)`: returns
`(macd_line, signal_line, histogram)`. -/
def _macd (closes : List ℚ) (fast slow signal : ℕ) : ℚ × ℚ × ℚ :=
  let macd_series := macdSeries closes fast slow
  let signal_series := _ema macd_series signal
  let macd_line := lastD macd_series
  let signal_line := lastD signal_series
  (macd_line, signal_line, macd_line - signal_line)

/-! ### `_rsi` (indicators.py:164-180) -/

/-- Wilder smoothing step: `(avg * (period - 1) + new) / period`. -/
def wilderStep (period : ℚ) (avg new : ℚ) : ℚ :=
  (avg * (period - 1) + new) / period

/-- The day-over-day deltas `closes[i] - closes[i-1]`. -/
def deltasOf (closes : List ℚ) : List ℚ :=
  List.zipWith (fun prev cur => cur - prev) closes (closes.drop 1)

/-- Seed with the mean of the first `period` values, then Wilder smoothing over the rest. -/
def wilderAvg (xs : List ℚ) (period : ℕ) : ℚ :=
  ((xs.drop period).foldl (wilderStep (period : ℚ)) ((xs.take period).sum / (period : ℚ)))

/-- Source `_rsi(closes, period)`. -/
def _rsi (closes : List ℚ) (period : ℕ) : ℚ :=
  let deltas := deltasOf closes
  let gains := deltas.map (fun d => if d > 0 then d else 0)
  let losses := deltas.map (fun d => if d < 0 then -d else 0)
  let avg_gain := wilderAvg gains period
  let avg_loss := wilderAvg losses period
  if avg_loss = 0 then 100
  else 100 - 100 / (1 + avg_gain / avg_loss)

/-! ### `_bollinger` (indicators.py:213-223)

The source returns `(middle + 2σ, middle, middle − 2σ)` with
`σ = variance ** 0.5`.  Since `σ` is irrational we return the pair
`(middle, variance)` and treat the band endpoints symbolically. -/

def bollingerData (closes : List ℚ) (period : ℕ) : ℚ × ℚ :=
  let window := takeLast period closes
  let middle := window.sum / (period : ℚ)
  let variance := (window.map (fun x => (x - middle) ^ 2)).sum / (period : ℚ)
  (middle, variance)

/-- Whether `current > middle + 2·√variance`, decided exactly by sign analysis
and squaring. -/
def aboveUpper (current middle variance : ℚ) : Bool :=
  decide (0 < current - middle ∧ 4 * variance < (current - middle) ^ 2)

/-- Whether `current < middle − 2·√variance`, decided exactly by sign analysis
and squaring. -/
def belowLower (current middle variance : ℚ) : Bool :=
  decide (current - middle < 0 ∧ 4 * variance < (current - middle) ^ 2)

/-- The Bollinger section of `compute_indicators` (indicators.py:51-64).
`none` models the `ZeroDivisionError` raised by
`((current - lower) / (upper - lower)) * 100` when `upper == lower`
(which happens exactly when the window variance is zero, since the two
earlier strict comparisons both fail in that case). -/
def bbBlock (closes : List ℚ) : Option (List (String × IndVal)) :=
  if 20 ≤ closes.length then
    let md := bollingerData closes 20
    let middle := md.1
    let variance := md.2
    let current := lastD closes
    let bands : List (String × IndVal) :=
      [("BB_upper", IndVal.bb middle 2 variance),
       ("BB_middle", IndVal.num middle),
       ("BB_lower", IndVal.bb middle (-2) variance)]
    if aboveUpper current middle variance then
      some (bands ++ [("BB_signal", IndVal.label "ABOVE_UPPER (overbought)")])
    else if belowLower current middle variance then
      some (bands ++ [("BB_signal", IndVal.label "BELOW_LOWER (oversold)")])
    else if variance = 0 then
      none
    else
      some (bands ++ [("BB_signal", IndVal.inBand current middle variance)])
  else some []

/-! ### `_atr` (indicators.py:226-239) -/

/-- The true-range series: `max(high-low, |high-prev_close|, |low-prev_close|)`. -/
def trueRanges (bars : List DailyBar) : List ℚ :=
  List.zipWith
    (fun prev cur =>
      max (cur.high - cur.low) (max |cur.high - prev.close| |cur.low - prev.close|))
    bars (bars.drop 1)

/-- Source `_atr(bars, period)`: simple mean when fewer than `period` true
ranges exist, else Wilder smoothing seeded with the mean of the first
`period`. -/
def _atr (bars : List DailyBar) (period : ℕ) : ℚ :=
  let true_ranges := trueRanges bars
  if true_ranges.length < period then
    if true_ranges = [] then 0 else true_ranges.sum / (true_ranges.length : ℚ)
  else
    (true_ranges.drop period).foldl (wilderStep (period : ℚ))
      ((true_ranges.take period).sum / (period : ℚ))

/-! ### `_streak` (indicators.py:242-258) -/

/-- The backwards loop of `_streak`, walking `(closes[i-1], closes[i])`
pairs from the most recent bar towards the oldest. -/
def streakGo : List (ℚ × ℚ) → ℤ → ℤ
  | [], streak => streak
  | (prev, cur) :: rest, streak =>
    if cur > prev then (if streak < 0 then streak else streakGo rest (streak + 1))
    else if cur < prev then (if streak > 0 then streak else streakGo rest (streak - 1))
    else streak

/-- Source `_streak(closes)`: consecutive up (positive) or down (negative) days. -/
def _streak (closes : List ℚ) : ℤ :=
  if closes.length < 2 then 0
  else streakGo (List.zip closes (closes.drop 1)).reverse 0

/-! ### The per-symbol sections of `compute_indicators` (indicators.py:14-161)

Each block mirrors one commented section of the loop body, in source
order; the per-symbol indicator dict is the concatenation of the blocks
(association list in insertion order). -/

/-- Simple Moving Averages (indicators.py:21-27). -/
def smaBlock (closes : List ℚ) : List (String × IndVal) :=
  (if 10 ≤ closes.length then
    [("SMA_10", IndVal.num ((takeLast 10 closes).sum / 10))] else [])
  ++ (if 20 ≤ closes.length then
    [("SMA_20", IndVal.num ((takeLast 20 closes).sum / 20))] else [])

/-- RSI section (indicators.py:29-38). -/
def rsiBlock (closes : List ℚ) : List (String × IndVal) :=
  if 15 ≤ closes.length then
    let rsi := _rsi closes 14
    [("RSI_14", IndVal.num rsi),
     ("RSI_signal", IndVal.label
       (if rsi > 70 then "OVERBOUGHT" else if rsi < 30 then "OVERSOLD" else "NEUTRAL"))]
  else []

/-- MACD section (indicators.py:40-49). -/
def macdBlock (closes : List ℚ) : List (String × IndVal) :=
  if 35 ≤ closes.length then
    let m := _macd closes 12 26 9
    [("MACD", IndVal.num m.1),
     ("MACD_signal", IndVal.num m.2.1),
     ("MACD_histogram", IndVal.num m.2.2),
     ("MACD_trend", IndVal.label (if m.2.2 > 0 then "BULLISH" else "BEARISH"))]
  else []

/-- VWAP approximation section (indicators.py:72-87). -/
def vwapBlock (bars : List DailyBar) (closes : List ℚ) : List (String × IndVal) :=
  if 5 ≤ bars.length then
    let recent := (takeLast 20 bars).filter (fun b => b.volume > 0)
    let tp_vol := (recent.map (fun b => ((b.high + b.low + b.close) / 3) * (b.volume : ℚ))).sum
    let total_vol : ℤ := (recent.map DailyBar.volume).sum
    if total_vol > 0 then
      let vwap := tp_vol / (total_vol : ℚ)
      [("VWAP", IndVal.num vwap),
       ("VWAP_signal", IndVal.label
         (if lastD closes > vwap then "ABOVE (bullish)" else "BELOW (bearish)"))]
    else []
  else []

/-- ATR section (indicators.py:89-100). -/
def atrBlock (bars : List DailyBar) (closes : List ℚ) : List (String × IndVal) :=
  if 15 ≤ bars.length then
    let atr := _atr bars 14
    let atr_pct := if lastD closes > 0 then atr / lastD closes * 100 else 0
    [("ATR_14", IndVal.num atr),
     ("ATR_pct", IndVal.pct atr_pct),
     ("volatility", IndVal.label
       (if atr_pct > 5 then "HIGH" else if atr_pct > 2 then "MODERATE" else "LOW"))]
  else []

/-- Volume anomaly section (indicators.py:102-115). -/
def volumeBlock (volumes : List ℤ) : List (String × IndVal) :=
  if 20 ≤ volumes.length ∧ volumes.getLast?.getD 0 > 0 then
    let avg_vol : ℚ := ((takeLast 20 volumes).sum : ℤ) / 20
    if avg_vol > 0 then
      let vol_ratio := (volumes.getLast?.getD 0 : ℚ) / avg_vol
      [("vol_ratio", IndVal.ratio vol_ratio),
       ("vol_signal", IndVal.label
         (if vol_ratio ≥ 2 then "SURGE (2x+ avg)"
          else if vol_ratio ≥ 3 / 2 then "ELEVATED"
          else if vol_ratio ≤ 1 / 2 then "DRY (low interest)"
          else "NORMAL"))]
    else []
  else []

/-- Maximum of a rational list (Python `max`, callers guard nonemptiness). -/
def listMax (l : List ℚ) : ℚ := l.foldl max (l.headD 0)

/-- Minimum of a rational list (Python `min`, callers guard nonemptiness). -/
def listMin (l : List ℚ) : ℚ := l.foldl min (l.headD 0)

/-- Yearly (52-week) high/low proximity section (indicators.py:117-133). -/
def rangeBlock (bars : List DailyBar) (closes : List ℚ) : List (String × IndVal) :=
  if 20 ≤ bars.length then
    let highs := bars.map DailyBar.high
    let lows := bars.map DailyBar.low
    let high_max := listMax highs
    let low_min := listMin lows
    let current := lastD closes
    let range_span := high_max - low_min
    if range_span > 0 then
      let pct_of_range := (current - low_min) / range_span * 100
      [("range_position", IndVal.pct pct_of_range),
       ("range_signal", IndVal.label
         (if pct_of_range ≥ 90 then "NEAR HIGH (momentum)"
          else if pct_of_range ≤ 10 then "NEAR LOW (reversal?)"
          else "MID-RANGE"))]
    else []
  else []

instance : Inhabited DailyBar := ⟨⟨"", 0, 0, 0, 0, 0⟩⟩

/-- Gap detection section (indicators.py:135-145). -/
def gapBlock (bars : List DailyBar) : List (String × IndVal) :=
  if 2 ≤ bars.length then
    let prev_close := (bars.getD (bars.length - 2) default).close
    let today_open := ((takeLast 1 bars).headD default).«open»
    let gap_pct := if prev_close > 0 then (today_open - prev_close) / prev_close * 100 else 0
    if 1 ≤ |gap_pct| then
      [("gap", IndVal.gap (if gap_pct > 0 then "UP" else "DOWN") |gap_pct|)]
    else []
  else []

/-- Consecutive trend counter section (indicators.py:147-156). -/
def streakBlock (closes : List ℚ) : List (String × IndVal) :=
  if 2 ≤ closes.length then
    let streak := _streak closes
    if 2 ≤ |streak| then
      [("streak", IndVal.streakDays streak.natAbs (if streak > 0 then "UP" else "DOWN"))]
      ++ (if 5 ≤ |streak| then [("streak_signal", IndVal.label "REVERSAL LIKELY")] else [])
    else []
  else []

/-- The loop body of `compute_indicators` for one symbol: the indicator
dict built by the blocks in source order.  `none` models the one
reachable exception (the Bollinger in-band zero division). -/
def computeSymbol (bars : List DailyBar) : Option (List (String × IndVal)) :=
  let closes := bars.map DailyBar.close
  let volumes := bars.map DailyBar.volume
  match bbBlock closes with
  | none => none
  | some bb =>
    some (smaBlock closes ++ rsiBlock closes ++ macdBlock closes ++ bb
      ++ vwapBlock bars closes ++ atrBlock bars closes ++ volumeBlock volumes
      ++ rangeBlock bars closes ++ gapBlock bars ++ streakBlock closes)

/-- Source `compute_indicators(bars)` (indicators.py:6-161): skips symbols with
fewer than 5 closes, omits symbols whose indicator dict is empty, and
propagates the one reachable exception as `none`. -/
def compute_indicators : List (String × List DailyBar) → Option (List (String × List (String × IndVal)))
  | [] => some []
  | (symbol, symbol_bars) :: rest =>
    if (symbol_bars.map DailyBar.close).length < 5 then compute_indicators rest
    else
      match computeSymbol symbol_bars with
      | none => none
      | some indicators =>
        match compute_indicators rest with
        | none => none
        | some res => some (if indicators = [] then res else (symbol, indicators) :: res)

/-! ### Risk engine data model (`models/__init__.py`, `config.py`) -/

inductive Action where
  | buy
  | sell
  | hold
deriving DecidableEq, Repr

inductive Confidence where
  | high
  | medium
  | low
deriving DecidableEq, Repr

/-- Source `TradeDecision`: a structured trade decision from the AI agent.
(The `timestamp` field is omitted: it is never read or written by the
risk engine.) -/
structure TradeDecision where
  symbol : String
  action : Action
  confidence : Confidence
  quantity : Option ℚ := none
  limit_price : Option ℚ := none
  reasoning : String
  risk_notes : String := ""
deriving DecidableEq, Repr

/-- Source `Position`: current portfolio position. -/
structure Position where
  symbol : String
  quantity : ℚ
  avg_entry_price : ℚ
  current_price : ℚ
  market_value : ℚ
  unrealized_pl : ℚ
  unrealized_pl_pct : ℚ
  asset_class : String := "us_equity"
deriving DecidableEq, Repr

/-- Source `PortfolioSnapshot`: point-in-time portfolio state (timestamp omitted,
never read by the risk engine). -/
structure PortfolioSnapshot where
  equity : ℚ
  cash : ℚ
  buying_power : ℚ
  positions : List Position
  daily_pl : ℚ := 0
  daily_pl_pct : ℚ := 0
deriving DecidableEq, Repr

/-- Source `RiskConfig` (config.py:21-29) with its defaults. -/
structure RiskConfig where
  max_position_pct : ℚ := 15
  max_portfolio_risk_pct : ℚ := 80
  daily_loss_limit_pct : ℚ := 3
  max_trades_per_day : ℕ := 10
  min_cash_reserve_pct : ℚ := 20
  session_budget : Option ℚ := none
  low_price_threshold : ℚ := 10
  low_price_max_position_pct : ℚ := 3
deriving DecidableEq, Repr

/-- A row returned by `store.get_recent_loss_sale`. -/
structure LossSale where
  loss : ℚ
  timestamp : String
deriving DecidableEq, Repr

/-- The data-store interface used by the risk engine (wash-sale and
last-buy lookups).  Timestamps are minutes on the same abstract clock as
the `now` parameter of `evaluate`. -/
structure DataStore where
  get_recent_loss_sale : String → ℕ → Option LossSale
  get_last_buy_time : String → Option ℚ

/-- Source `RiskManager` state (risk/__init__.py:15-19). -/
structure RiskManager where
  config : RiskConfig := {}
  trades_today : ℕ := 0
  session_spent : ℚ := 0
  store : Option DataStore := none

def WASH_SALE_DAYS : ℕ := 30

def MIN_HOLD_MINUTES : ℤ := 30

/-! ### Veto reasons

Each constructor carries the exact payloads of the corresponding
f-string in the source; `renderReason` produces the human-readable text
(with fixed-precision number formatting abstracted by exact rendering). -/

inductive Reason where
  | invalidQuantity
  | washSale (symbol : String) (loss : ℚ) (date : String)
  | sessionBudget (cost remaining : ℚ)
  | buyingPowerLow (bp_pct min_pct : ℚ)
  | positionTooLarge (lowPriced isCrypto : Bool) (position_pct max_pct : ℚ)
  | noPosition (symbol : String)
  | sellQtyExceeds (qty pos_qty : ℚ)
  | minHold (held_mins mins_left : ℤ)
deriving DecidableEq, Repr

/-- Python `int(...)` on a rational: truncation towards zero. -/
def pyint (q : ℚ) : ℤ :=
  if 0 ≤ q then ⌊q⌋ else ⌈q⌉

/-- The human-readable veto text of each reason (risk/__init__.py). -/
def renderReason : Reason → String
  | Reason.invalidQuantity => "Invalid quantity"
  | Reason.washSale s loss date =>
    "Wash sale: " ++ s ++ " sold at loss ($" ++ toString loss ++ ") on "
      ++ date ++ ", 30-day cooldown"
  | Reason.sessionBudget cost remaining =>
    "Exceeds session budget ($" ++ toString cost ++ " would exceed $"
      ++ toString remaining ++ " remaining)"
  | Reason.buyingPowerLow bp minp =>
    "Buying power too low (" ++ toString bp ++ "% < " ++ toString minp ++ "%)"
  | Reason.positionTooLarge lowPriced isCrypto pct maxp =>
    "Position too large for " ++ (if lowPriced then "low-priced " else "")
      ++ (if isCrypto then "crypto" else "stock")
      ++ " (" ++ toString pct ++ "% > " ++ toString maxp ++ "%)"
  | Reason.noPosition s => "No position in " ++ s ++ " to sell"
  | Reason.sellQtyExceeds q pq =>
    "Sell qty (" ++ toString q ++ ") > position (" ++ toString pq ++ ")"
  | Reason.minHold held left =>
    "Min hold period: bought " ++ toString held ++ "m ago, wait "
      ++ toString left ++ "m more"

/-! ### Risk checks (risk/__init__.py:54-154)

Each check returns `some reason` on veto and `none` on pass; chaining
with `Option.orElse` mirrors the sequential early `return`s of the
source ("first failing check wins"). -/

/-- Python `next((p for p in positions if p.symbol == symbol), None)`. -/
def findPosition (positions : List Position) (symbol : String) : Option Position :=
  positions.find? (fun p => p.symbol == symbol)

/-- Source `_circuit_breaker_triggered` (risk/__init__.py:54-60). -/
def _circuit_breaker_triggered (rm : RiskManager) (portfolio : PortfolioSnapshot) : Bool :=
  if portfolio.daily_pl_pct < -rm.config.daily_loss_limit_pct then true
  else if rm.config.max_trades_per_day ≤ rm.trades_today then true
  else false

/-- The wash-sale rule of `_check_buy` (risk/__init__.py:77-86): applies
only when a store is present and the symbol is not crypto. -/
def washSaleCheck (rm : RiskManager) (d : TradeDecision) : Option Reason :=
  match rm.store with
  | some st =>
    if ¬ d.symbol.data.contains '/' then
      match st.get_recent_loss_sale d.symbol WASH_SALE_DAYS with
      | some loss_sale =>
        some (Reason.washSale d.symbol loss_sale.loss (loss_sale.timestamp.take 10))
      | none => none
    else none
  | none => none

/-- The session-budget rule of `_check_buy` (risk/__init__.py:88-100). -/
def sessionBudgetCheck (rm : RiskManager) (d : TradeDecision) (q : ℚ)
    (portfolio : PortfolioSnapshot) : Option Reason :=
  match rm.config.session_budget with
  | some budget =>
    let existing := findPosition portfolio.positions d.symbol
    let est_price := (existing.map Position.current_price).getD 0
    if est_price > 0 then
      let cost := q * est_price
      if rm.session_spent + cost > budget then
        some (Reason.sessionBudget cost (budget - rm.session_spent))
      else none
    else none
  | none => none

/-- The buying-power reserve rule of `_check_buy` (risk/__init__.py:102-108). -/
def buyingPowerCheck (rm : RiskManager) (portfolio : PortfolioSnapshot) : Option Reason :=
  let bp_pct := if portfolio.equity ≠ 0 then portfolio.buying_power / portfolio.equity * 100 else 0
  if bp_pct ≤ rm.config.min_cash_reserve_pct then
    some (Reason.buyingPowerLow bp_pct rm.config.min_cash_reserve_pct)
  else none

/-- The position-concentration rule of `_check_buy` (risk/__init__.py:110-127):
skipped entirely when the reference price (the existing position's
current price, `0` when no position is held) is not positive. -/
def positionSizeCheck (rm : RiskManager) (d : TradeDecision) (q : ℚ)
    (portfolio : PortfolioSnapshot) : Option Reason :=
  let existing := findPosition portfolio.positions d.symbol
  let existing_value := (existing.map Position.market_value).getD 0
  let est_price := (existing.map Position.current_price).getD 0
  let is_crypto := d.symbol.data.contains '/'
  if est_price > 0 then
    let new_value := existing_value + q * est_price
    let position_pct := new_value / portfolio.equity * 100
    let max_pct :=
      if ¬ is_crypto ∧ est_price < rm.config.low_price_threshold
      then rm.config.low_price_max_position_pct
      else rm.config.max_position_pct
    if position_pct > max_pct then
      some (Reason.positionTooLarge (est_price < rm.config.low_price_threshold)
        is_crypto position_pct max_pct)
    else none
  else none

/-- Source `_check_buy` (risk/__init__.py:72-129). -/
def _check_buy (rm : RiskManager) (d : TradeDecision)
    (portfolio : PortfolioSnapshot) : Option Reason :=
  match d.quantity with
  | none => some Reason.invalidQuantity
  | some q =>
    if q ≤ 0 then some Reason.invalidQuantity
    else
      (washSaleCheck rm d).orElse fun _ =>
      (sessionBudgetCheck rm d q portfolio).orElse fun _ =>
      (buyingPowerCheck rm portfolio).orElse fun _ =>
      positionSizeCheck rm d q portfolio

/-- The minimum-hold rule of `_check_sell` (risk/__init__.py:141-152):
applies only when a store is present and records a last-buy time. -/
def minHoldCheck (rm : RiskManager) (symbol : String) (now : ℚ) : Option Reason :=
  match rm.store with
  | some st =>
    match st.get_last_buy_time symbol with
    | some last_buy =>
      let held_for := now - last_buy
      if held_for < (MIN_HOLD_MINUTES : ℚ) then
        some (Reason.minHold (pyint held_for) (MIN_HOLD_MINUTES - pyint held_for))
      else none
    | none => none
  | none => none

/-- Source `_check_sell` (risk/__init__.py:131-154). -/
def _check_sell (rm : RiskManager) (d : TradeDecision)
    (portfolio : PortfolioSnapshot) (now : ℚ) : Option Reason :=
  match findPosition portfolio.positions d.symbol with
  | none => some (Reason.noPosition d.symbol)
  | some existing =>
    (match d.quantity with
     | some q =>
       if q ≠ 0 ∧ q > existing.quantity then
         some (Reason.sellQtyExceeds q existing.quantity)
       else none
     | none => none).orElse fun _ =>
    minHoldCheck rm d.symbol now

/-- Source `_check_decision` (risk/__init__.py:62-70). -/
def _check_decision (rm : RiskManager) (d : TradeDecision)
    (portfolio : PortfolioSnapshot) (now : ℚ) : Option Reason :=
  if d.action = Action.buy then _check_buy rm d portfolio
  else if d.action = Action.sell then _check_sell rm d portfolio now
  else none

/-- The in-place veto mutation (risk/__init__.py:36-38). -/
def vetoTransform (d : TradeDecision) (r : Reason) : TradeDecision :=
  { d with
    risk_notes := "VETOED: " ++ renderReason r
    action := Action.hold
    quantity := none }

/-- The loop body of `evaluate` for one non-batch-filtered decision
(risk/__init__.py:29-50): returns the (possibly vetoed) decision that is
appended to `approved`, and the updated manager state. -/
def processDecision (rm : RiskManager) (portfolio : PortfolioSnapshot) (now : ℚ)
    (d : TradeDecision) : TradeDecision × RiskManager :=
  if d.action = Action.hold then (d, rm)
  else
    match _check_decision rm d portfolio now with
    | some reason => (vetoTransform d reason, rm)
    | none =>
      let rm1 : RiskManager := { rm with trades_today := rm.trades_today + 1 }
      let rm2 : RiskManager :=
        match d.action, d.quantity with
        | Action.buy, some q =>
          if q ≠ 0 then
            let existing := findPosition portfolio.positions d.symbol
            let price := (existing.map Position.current_price).getD 0
            if price > 0 then { rm1 with session_spent := rm1.session_spent + q * price }
            else rm1
          else rm1
        | _, _ => rm1
      (d, rm2)

/-- The `for decision in decisions` loop of `evaluate`, threading the
mutable manager state. -/
def evaluateGo (rm : RiskManager) (portfolio : PortfolioSnapshot) (now : ℚ) :
    List TradeDecision → List TradeDecision × RiskManager
  | [] => ([], rm)
  | d :: ds =>
    let step := processDecision rm portfolio now d
    let rest := evaluateGo step.2 portfolio now ds
    (step.1 :: rest.1, rest.2)

/-- Source `evaluate(decisions, portfolio)` (risk/__init__.py:21-52), returning
the approved list together with the updated manager state. -/
def evaluate (rm : RiskManager) (decisions : List TradeDecision)
    (portfolio : PortfolioSnapshot) (now : ℚ) : List TradeDecision × RiskManager :=
  if _circuit_breaker_triggered rm portfolio then ([], rm)
  else evaluateGo rm portfolio now decisions

/-- Source `reset_daily` (risk/__init__.py:156-158). -/
def reset_daily (rm : RiskManager) : RiskManager :=
  { rm with trades_today := 0 }

/-- Modelled from the spec: the claim's reading of the MACD series, in
which the two EMA series are "aligned over the tail of length
`len − 26 + 1` (each pair taken at the same bar)".  Since `_ema closes
slow` has exactly `len − slow + 1` entries, same-bar alignment pairs it
with the last `len − slow + 1` entries of `_ema closes fast`.  Used only
to compare against the source's `macdSeries`. -/
def macdSeriesSameBar (closes : List ℚ) (fast slow : ℕ) : List ℚ :=
  let ema_fast := _ema closes fast
  let ema_slow := _ema closes slow
  List.zipWith (fun f s => f - s) (takeLast ema_slow.length ema_fast) ema_slow

/-! ### Named concrete inputs and auxiliary definitions used by the theorems -/

/-- Concrete close series for the C3 counterexample: 34 flat closes at 0
followed by a spike to 351 (length 35). -/
def macdCexCloses : List ℚ :=
  [0, 0, 0, 0, 0, 0, 0, 0, 0, 0, 0, 0, 0, 0, 0, 0, 0, 0,
   0, 0, 0, 0, 0, 0, 0, 0, 0, 0, 0, 0, 0, 0, 0, 0, 351]

/-- Concrete bar for the C7 counterexample: a constant-price day. -/
def bbCexBar : DailyBar :=
  { date := "d", «open» := 5, high := 5, low := 5, close := 5, volume := 100 }

/-- The circuit-breaker entry condition, as a proposition. -/
def breakerProp (rm : RiskManager) (portfolio : PortfolioSnapshot) : Prop :=
  portfolio.daily_pl_pct < -rm.config.daily_loss_limit_pct
    ∨ rm.config.max_trades_per_day ≤ rm.trades_today

/-- The sequence of manager states seen by successive decisions of a
batch (the state the `i`-th decision is checked against). -/
def statesFrom (portfolio : PortfolioSnapshot) (now : ℚ) :
    RiskManager → List TradeDecision → List RiskManager
  | _, [] => []
  | rm, d :: ds => rm :: statesFrom portfolio now (processDecision rm portfolio now d).2 ds

/-- Concrete buy proposal used by several witnesses. -/
def wBuyDecision : TradeDecision :=
  { symbol := "A", action := Action.buy, confidence := Confidence.high,
    quantity := some 1, reasoning := "r" }

/-- Concrete hold proposal used by several witnesses. -/
def wHoldDecision : TradeDecision :=
  { symbol := "A", action := Action.hold, confidence := Confidence.low, reasoning := "r" }

/-- Concrete portfolio that trips the daily-loss circuit breaker. -/
def wBreakerPortfolio : PortfolioSnapshot :=
  { equity := 100, cash := 100, buying_power := 100, positions := [], daily_pl_pct := -4 }

/-- Concrete healthy portfolio. -/
def wHealthyPortfolio : PortfolioSnapshot :=
  { equity := 100, cash := 100, buying_power := 100, positions := [] }

/-- Concrete invalid BUY proposal (no quantity) for the C4 witness. -/
def wInvalidBuy : TradeDecision :=
  { symbol := "A", action := Action.buy, confidence := Confidence.high,
    quantity := none, reasoning := "r" }

/-- Concrete position of 5 shares of "A" used by several witnesses. -/
def wPositionA : Position :=
  { symbol := "A", quantity := 5, avg_entry_price := 1, current_price := 2,
    market_value := 10, unrealized_pl := 0, unrealized_pl_pct := 0 }

/-- Concrete portfolio holding 5 shares of "A". -/
def wSellPortfolio : PortfolioSnapshot :=
  { equity := 100, cash := 100, buying_power := 100, positions := [wPositionA] }

/-- Concrete SELL proposal for exactly the held quantity. -/
def wSell5 : TradeDecision :=
  { symbol := "A", action := Action.sell, confidence := Confidence.high,
    quantity := some 5, reasoning := "r" }

/-- Concrete SELL proposal exceeding the held quantity. -/
def wSell6 : TradeDecision :=
  { symbol := "A", action := Action.sell, confidence := Confidence.high,
    quantity := some 6, reasoning := "r" }

/-- Concrete BUY that reaches the buying-power rule with no store. -/
def wBrokeBuy : TradeDecision :=
  { symbol := "A", action := Action.buy, confidence := Confidence.high,
    quantity := some 1, reasoning := "r" }

/-- Concrete portfolio with no buying power. -/
def wBrokePortfolio : PortfolioSnapshot :=
  { equity := 100, cash := 0, buying_power := 0, positions := [] }

/-- Concrete $100,000 portfolio with no position in the proposed symbol. -/
def c2NoPosPortfolio : PortfolioSnapshot :=
  { equity := 100000, cash := 50000, buying_power := 50000, positions := [] }

/-- Concrete BUY of a $9 stock reaching 4% of equity (4000/9 shares). -/
def c2BuyDecision : TradeDecision :=
  { symbol := "ABC", action := Action.buy, confidence := Confidence.high,
    quantity := some (4000 / 9), reasoning := "r" }

/-- Concrete existing $9 position worth $100 for the C2 witness. -/
def c2HeldPosition : Position :=
  { symbol := "ABC", quantity := 100 / 9, avg_entry_price := 9, current_price := 9,
    market_value := 100, unrealized_pl := 0, unrealized_pl_pct := 0 }

/-- Concrete $100,000 portfolio holding the $9 position. -/
def c2HeldPortfolio : PortfolioSnapshot :=
  { equity := 100000, cash := 50000, buying_power := 50000,
    positions := [c2HeldPosition] }

/-- Concrete BUY of 1300/3 further shares, reaching exactly 4% of equity. -/
def c2HeldBuyDecision : TradeDecision :=
  { symbol := "ABC", action := Action.buy, confidence := Confidence.high,
    quantity := some (1300 / 3), reasoning := "r" }

/-! ## Supporting lemmas -/

theorem emaRun_length (m p : ℚ) (l : List ℚ) : (emaRun m p l).length = l.length := by
  induction l generalizing p with
  | nil => rfl
  | cons v vs ih => simp [emaRun, ih]

theorem _ema_length (values : List ℚ) (period : ℕ) (h : period ≤ values.length) :
    (_ema values period).length = values.length - period + 1 := by
  unfold _ema
  rw [if_neg (by omega)]
  simp [emaRun_length]

theorem emaRun_replicate (m c : ℚ) (k : ℕ) :
    emaRun m c (List.replicate k c) = List.replicate k c := by
  induction k with
  | zero => rfl
  | succ n ih =>
    simp only [List.replicate_succ, emaRun, emaStep]
    rw [show (c - c) * m + c = c by ring]
    simp [ih]

theorem _ema_replicate (n period : ℕ) (c : ℚ) (h1 : 0 < period) (h2 : period ≤ n) :
    _ema (List.replicate n c) period = List.replicate (n - period + 1) c := by
  unfold _ema
  rw [if_neg (by simp; omega)]
  have htake : (List.replicate n c).take period = List.replicate period c := by
    rw [List.take_replicate]; congr 1; omega
  have hdrop : (List.replicate n c).drop period = List.replicate (n - period) c := by
    rw [List.drop_replicate]
  have hsum : ((List.replicate period c).sum : ℚ) = (period : ℚ) * c := by
    simp [List.sum_replicate, nsmul_eq_mul]
  have hp : (period : ℚ) ≠ 0 := by positivity
  have hseed : ((List.replicate n c).take period).sum / (period : ℚ) = c := by
    rw [htake, hsum, mul_comm, mul_div_assoc, div_self hp, mul_one]
  simp only [hseed, hdrop, emaRun_replicate]
  rw [← List.replicate_succ]

theorem takeLast_replicate {α : Type} (k m : ℕ) (c : α) :
    takeLast k (List.replicate m c) = List.replicate (min k m) c := by
  unfold takeLast
  rw [List.drop_replicate, List.length_replicate]
  congr 1
  omega

theorem lastD_replicate (k : ℕ) (c : ℚ) (h : k ≠ 0) :
    lastD (List.replicate k c) = c := by
  obtain ⟨j, rfl⟩ : ∃ j, k = j + 1 := ⟨k - 1, by omega⟩
  unfold lastD
  rw [List.getLast?_eq_getLast_of_ne_nil (by simp),
    List.getLast_congr _ _ rfl, List.getLast_replicate_succ j c]
  rfl

theorem zipWith_sub_replicate (a b : ℕ) (c : ℚ) :
    List.zipWith (fun f s => f - s) (List.replicate a c) (List.replicate b c)
      = List.replicate (min a b) 0 := by
  induction a generalizing b with
  | zero => simp
  | succ n ih =>
    cases b with
    | zero => simp
    | succ m =>
      simp only [List.replicate_succ, List.zipWith_cons_cons, ih, sub_self]
      rw [show min (n + 1) (m + 1) = min n m + 1 by omega, List.replicate_succ]

theorem macdSeries_replicate (n : ℕ) (c : ℚ) (h : 35 ≤ n) :
    macdSeries (List.replicate n c) 12 26
      = List.replicate (min (min 26 (n - 11)) (n - 25)) 0 := by
  unfold macdSeries
  rw [_ema_replicate n 12 c (by omega) (by simpa using by omega),
    _ema_replicate n 26 c (by omega) (by simpa using by omega)]
  rw [show n - 12 + 1 = n - 11 by omega, show n - 26 + 1 = n - 25 by omega]
  rw [takeLast_replicate, zipWith_sub_replicate]

theorem macdSeries_length (closes : List ℚ) (h : 35 ≤ closes.length) :
    (macdSeries closes 12 26).length = min (closes.length - 25) 26 := by
  unfold macdSeries takeLast
  rw [List.length_zipWith, List.length_drop,
    _ema_length closes 12 (by omega), _ema_length closes 26 (by omega)]
  omega

theorem lastD_of_replicate_min (a b : ℕ) (h : 10 ≤ min (min 26 a) b) :
    lastD (_ema (List.replicate (min (min 26 a) b) 0) 9) = 0 := by
  rw [_ema_replicate _ 9 0 (by omega) (by simpa using by omega)]
  exact lastD_replicate _ 0 (by omega)

/-! ## Claim theorems -/

/-- C8: for every constant-price close series of length ≥ 35, the MACD
computation yields a zero histogram — in fact the MACD line, the signal
line and the histogram are all zero, so the MACD line equals the signal
line. -/
theorem constant_macd_zero_histogram (n : ℕ) (c : ℚ) (h : 35 ≤ n) :
    _macd (List.replicate n c) 12 26 9 = (0, 0, 0)
      ∧ (_macd (List.replicate n c) 12 26 9).1 = (_macd (List.replicate n c) 12 26 9).2.1
      ∧ (_macd (List.replicate n c) 12 26 9).2.2 = 0 := by
  have hser := macdSeries_replicate n c h
  have hmin : 10 ≤ min (min 26 (n - 11)) (n - 25) := by omega
  have hlast : lastD (macdSeries (List.replicate n c) 12 26) = 0 := by
    rw [hser]; exact lastD_replicate _ 0 (by omega)
  have hsig : lastD (_ema (macdSeries (List.replicate n c) 12 26) 9) = 0 := by
    rw [hser]; exact lastD_of_replicate_min (n - 11) (n - 25) hmin
  refine ⟨?_, ?_, ?_⟩ <;>
    simp [_macd, hlast, hsig]

/-- Witness for C8 at the concrete input `replicate 35 7`. -/
theorem constant_macd_zero_histogram_witness :
    (35 : ℕ) ≤ 35 ∧ _macd (List.replicate 35 (7 : ℚ)) 12 26 9 = (0, 0, 0) :=
  ⟨by omega, (constant_macd_zero_histogram 35 7 (by omega)).1⟩

/-- C3 counterexample: on the length-35 series `macdCexCloses` the
source's MACD line (−26) differs from the value forced by the claim's
"each pair taken at the same bar" alignment (28), and on a length-52
series the MACD series does not have the claimed length `len − 26 + 1`. -/
theorem macd_same_bar_alignment_cex :
    35 ≤ macdCexCloses.length
    ∧ (_macd macdCexCloses 12 26 9).1 ≠ lastD (macdSeriesSameBar macdCexCloses 12 26)
    ∧ (macdSeries (List.replicate 52 (1 : ℚ)) 12 26).length ≠ 52 - 26 + 1 := by
  refine ⟨by norm_num [macdCexCloses], ?_, ?_⟩
  · have h1 : (_macd macdCexCloses 12 26 9).1 = -26 := by
      norm_num [_macd, macdSeries, _ema, emaRun, emaStep, takeLast, lastD, macdCexCloses]
    have h2 : lastD (macdSeriesSameBar macdCexCloses 12 26) = 28 := by
      norm_num [macdSeriesSameBar, _ema, emaRun, emaStep, takeLast, lastD, macdCexCloses]
    rw [h1, h2]
    norm_num
  · rw [macdSeries_length _ (by simp)]
    norm_num

/-- C3 amended: the MACD series zips the last 26 entries of EMA(12) with
EMA(26) entrywise (truncating to the shorter list), so for a series of
length `len ≥ 35` it has length `min (len − 25) 26` — not always
`len − 26 + 1`, and the pairs need not come from the same bar.  The
signal line is EMA(9) of that series, the histogram is MACD line minus
signal line, and EMA(26) itself does have length `len − 26 + 1`. -/
theorem macd_structure (closes : List ℚ) (h : 35 ≤ closes.length) :
    (macdSeries closes 12 26).length = min (closes.length - 25) 26
    ∧ macdSeries closes 12 26
        = List.zipWith (fun f s => f - s) (takeLast 26 (_ema closes 12)) (_ema closes 26)
    ∧ _macd closes 12 26 9
        = (lastD (macdSeries closes 12 26),
           lastD (_ema (macdSeries closes 12 26) 9),
           lastD (macdSeries closes 12 26) - lastD (_ema (macdSeries closes 12 26) 9))
    ∧ (_ema closes 26).length = closes.length - 26 + 1 :=
  ⟨macdSeries_length closes h, rfl, rfl, _ema_length closes 26 (by omega)⟩

/-- Witness for C3's amended theorem at the concrete input `macdCexCloses`. -/
theorem macd_structure_witness :
    (macdSeries macdCexCloses 12 26).length = 10 := by
  have := (macd_structure macdCexCloses (by norm_num [macdCexCloses])).1
  norm_num [macdCexCloses] at this
  exact this

theorem deltasOf_pos : ∀ (closes : List ℚ), List.Chain' (· < ·) closes →
    ∀ d ∈ deltasOf closes, 0 < d
  | [], _, d, hd => by simp [deltasOf] at hd
  | [a], _, d, hd => by simp [deltasOf] at hd
  | a :: b :: t, h, d, hd => by
    rw [List.chain'_cons] at h
    simp only [deltasOf, List.drop_one, List.tail_cons, List.zipWith_cons_cons,
      List.mem_cons] at hd
    rcases hd with hd | hd
    · rw [hd]; exact sub_pos.2 h.1
    · exact deltasOf_pos (b :: t) h.2 d (by simpa [deltasOf, List.drop_one] using hd)

theorem losses_map_zero (l : List ℚ) (h : ∀ d ∈ l, 0 < d) :
    l.map (fun d => if d < 0 then -d else 0) = List.replicate l.length 0 := by
  induction l with
  | nil => rfl
  | cons a t ih =>
    have ha : ¬ a < 0 := not_lt.2 (le_of_lt (h a (by simp)))
    simp only [List.map_cons, if_neg ha, List.length_cons, List.replicate_succ]
    rw [ih (fun d hd => h d (by simp [hd]))]

theorem foldl_wilderStep_zero (p : ℚ) (j : ℕ) :
    (List.replicate j (0 : ℚ)).foldl (wilderStep p) 0 = 0 := by
  induction j with
  | zero => rfl
  | succ n ih =>
    rw [List.replicate_succ, List.foldl_cons,
      show wilderStep p 0 0 = 0 by simp [wilderStep]]
    exact ih

theorem wilderAvg_zero (k period : ℕ) :
    wilderAvg (List.replicate k (0 : ℚ)) period = 0 := by
  unfold wilderAvg
  rw [List.take_replicate, List.drop_replicate, List.sum_replicate]
  simp [foldl_wilderStep_zero]

/-- C6: the embedded `_rsi` computes Wilder's smoothed RSI (the seed is
the simple mean of the first 14 gain/loss values, the recurrence is
`avg = (avg*(period-1) + new)/period`, and RSI is `100` when the
smoothed average loss is zero) — in particular, on every strictly
monotonically increasing close series of length 20 it reports exactly
100, the RSI block classifies it `OVERBOUGHT`, and any symbol whose bars
have those closes carries both entries in its `compute_indicators`
bundle. -/
theorem rsi_monotone_overbought (closes : List ℚ) (hlen : closes.length = 20)
    (hmono : List.Chain' (· < ·) closes) :
    _rsi closes 14 = 100
    ∧ rsiBlock closes = [("RSI_14", IndVal.num 100), ("RSI_signal", IndVal.label "OVERBOUGHT")]
    ∧ ∀ (bars : List DailyBar) (l : List (String × IndVal)),
        bars.map DailyBar.close = closes → computeSymbol bars = some l →
        ("RSI_14", IndVal.num 100) ∈ l ∧ ("RSI_signal", IndVal.label "OVERBOUGHT") ∈ l := by
  have hloss :
      (deltasOf closes).map (fun d => if d < 0 then -d else 0)
        = List.replicate (deltasOf closes).length 0 :=
    losses_map_zero _ (deltasOf_pos closes hmono)
  have h100 : _rsi closes 14 = 100 := by
    unfold _rsi
    simp [hloss, wilderAvg_zero]
  have hblock : rsiBlock closes
      = [("RSI_14", IndVal.num 100), ("RSI_signal", IndVal.label "OVERBOUGHT")] := by
    unfold rsiBlock
    rw [if_pos (show 15 ≤ closes.length by omega)]
    simp only [h100]
    norm_num
  refine ⟨h100, hblock, ?_⟩
  intro bars l hc hsym
  unfold computeSymbol at hsym
  rcases hbb : bbBlock (bars.map DailyBar.close) with _ | bb
  · simp only [hbb] at hsym
    exact absurd hsym (by simp)
  · simp only [hbb] at hsym
    have hl := Option.some.inj hsym
    rw [← hl, hc, hblock]
    constructor <;> simp

/-- Witness for C6 at the concrete closes `1, 2, …, 20`. -/
theorem rsi_monotone_overbought_witness :
    ([(1 : ℚ), 2, 3, 4, 5, 6, 7, 8, 9, 10, 11, 12, 13, 14, 15, 16, 17, 18, 19,
        20] : List ℚ).length = 20
    ∧ List.Chain' (· < ·)
        ([(1 : ℚ), 2, 3, 4, 5, 6, 7, 8, 9, 10, 11, 12, 13, 14, 15, 16, 17, 18, 19, 20] : List ℚ)
    ∧ _rsi [(1 : ℚ), 2, 3, 4, 5, 6, 7, 8, 9, 10, 11, 12, 13, 14, 15, 16, 17, 18, 19, 20] 14
        = 100 := by
  refine ⟨by norm_num, by norm_num [List.chain'_cons], ?_⟩
  exact (rsi_monotone_overbought _ (by norm_num) (by norm_num [List.chain'_cons])).1

theorem list_sum_sq_zero {l : List ℚ} {m : ℚ}
    (h : (l.map (fun x => (x - m) ^ 2)).sum = 0) : ∀ x ∈ l, x = m := by
  induction l with
  | nil => simp
  | cons a t ih =>
    simp only [List.map_cons, List.sum_cons] at h
    have hrest : 0 ≤ (t.map (fun x => (x - m) ^ 2)).sum := by
      apply List.sum_nonneg
      intro x hx
      rcases List.mem_map.mp hx with ⟨y, _, rfl⟩
      positivity
    have hhead : (0 : ℚ) ≤ (a - m) ^ 2 := sq_nonneg _
    have h1 : (a - m) ^ 2 = 0 := by linarith
    have h2 : (t.map (fun x => (x - m) ^ 2)).sum = 0 := by linarith
    intro x hx
    rcases List.mem_cons.mp hx with rfl | hx
    · have h0 := (pow_eq_zero_iff two_ne_zero).mp h1
      linarith [sub_eq_zero.mp h0]
    · exact ih h2 x hx

theorem bollinger_variance_zero_iff (closes : List ℚ) :
    (bollingerData closes 20).2 = 0 ↔
      ∀ x ∈ takeLast 20 closes, x = (bollingerData closes 20).1 := by
  unfold bollingerData
  simp only []
  constructor
  · intro h0 x hx
    have hsum :
        ((takeLast 20 closes).map
          (fun x => (x - (takeLast 20 closes).sum / (20 : ℚ)) ^ 2)).sum = 0 := by
      rcases div_eq_zero_iff.mp h0 with h | h
      · exact h
      · norm_num at h
    exact list_sum_sq_zero hsum x hx
  · intro hall
    have hsum :
        ((takeLast 20 closes).map
          (fun x => (x - (takeLast 20 closes).sum / ((20 : ℕ) : ℚ)) ^ 2)).sum = 0 := by
      apply List.sum_eq_zero
      intro y hy
      rcases List.mem_map.mp hy with ⟨x, hx, rfl⟩
      rw [hall x hx]
      ring
    rw [hsum, zero_div]

theorem bbBlock_isSome (closes : List ℚ)
    (h : ¬ (20 ≤ closes.length ∧ (bollingerData closes 20).2 = 0)) :
    (bbBlock closes).isSome = true := by
  unfold bbBlock
  by_cases hlen : 20 ≤ closes.length
  · rw [if_pos hlen]
    have hvar : (bollingerData closes 20).2 ≠ 0 := fun hv => h ⟨hlen, hv⟩
    by_cases ha : aboveUpper (lastD closes) (bollingerData closes 20).1 (bollingerData closes 20).2
    · simp [ha]
    · by_cases hb : belowLower (lastD closes) (bollingerData closes 20).1 (bollingerData closes 20).2
      · simp [ha, hb]
      · simp [ha, hb, hvar]
  · rw [if_neg hlen]
    rfl

/-- C7 counterexample: on 20 identical bars the Bollinger window has
zero variance, the in-band branch of `compute_indicators` divides by
`upper - lower = 0`, and the whole call raises (modelled as `none`)
rather than returning a mapping. -/
theorem indicators_constant_window_cex :
    compute_indicators [("X", List.replicate 20 bbCexBar)] = none := by
  have hcloses : (List.replicate 20 bbCexBar).map DailyBar.close
      = List.replicate 20 (5 : ℚ) := by
    simp [bbCexBar]
  have hdata : bollingerData (List.replicate 20 (5 : ℚ)) 20 = (5, 0) := by
    unfold bollingerData takeLast
    norm_num [List.sum_replicate, List.map_replicate]
  have hlast : lastD (List.replicate 20 (5 : ℚ)) = 5 := lastD_replicate 20 5 (by omega)
  have hbb : bbBlock (List.replicate 20 (5 : ℚ)) = none := by
    unfold bbBlock
    rw [if_pos (by simp)]
    simp only [hdata, hlast]
    norm_num [aboveUpper, belowLower]
  have hsym : computeSymbol (List.replicate 20 bbCexBar) = none := by
    unfold computeSymbol
    simp only [hcloses, hbb]
  unfold compute_indicators
  rw [if_neg (by simp)]
  simp only [hsym]

/-- C7 amended: `compute_indicators` raises only when some processed
symbol has at least 20 bars whose last-20 closes all coincide (zero
Bollinger variance) — on every other input it returns a mapping; a
symbol with fewer than 5 closes is skipped (with exactly 4 bars the
output is empty), and each division guard is local to its own block:
zero filtered volume empties only the VWAP block, zero 20-day volume sum
empties only the volume block, zero range span empties only the range
block, zero previous close suppresses the gap, zero current close forces
`ATR_pct` to 0 (still emitted, volatility `LOW`), and the per-symbol
bundle is always the concatenation of the independent blocks. -/
theorem indicators_guard_locality :
    (∀ bars : List (String × List DailyBar),
       (∀ p ∈ bars, ¬ (20 ≤ (p.2.map DailyBar.close).length ∧
           (bollingerData (p.2.map DailyBar.close) 20).2 = 0)) →
       (compute_indicators bars).isSome = true)
    ∧ (∀ (s : String) (bs : List DailyBar) (rest : List (String × List DailyBar)),
        (bs.map DailyBar.close).length < 5 →
        compute_indicators ((s, bs) :: rest) = compute_indicators rest)
    ∧ (∀ (s : String) (bs : List DailyBar), bs.length = 4 →
        compute_indicators [(s, bs)] = some [])
    ∧ (∀ (bars : List DailyBar) (closes : List ℚ),
        ((((takeLast 20 bars).filter (fun b => b.volume > 0)).map DailyBar.volume).sum : ℤ) = 0 →
        vwapBlock bars closes = [])
    ∧ (∀ volumes : List ℤ, ((takeLast 20 volumes).sum : ℤ) = 0 → volumeBlock volumes = [])
    ∧ (∀ (bars : List DailyBar) (closes : List ℚ),
        listMax (bars.map DailyBar.high) - listMin (bars.map DailyBar.low) = 0 →
        rangeBlock bars closes = [])
    ∧ (∀ bars : List DailyBar, (bars.getD (bars.length - 2) default).close = 0 →
        gapBlock bars = [])
    ∧ (∀ (bars : List DailyBar) (closes : List ℚ), lastD closes = 0 → 15 ≤ bars.length →
        atrBlock bars closes
          = [("ATR_14", IndVal.num (_atr bars 14)), ("ATR_pct", IndVal.pct 0),
             ("volatility", IndVal.label "LOW")])
    ∧ (∀ (bars : List DailyBar) (bb : List (String × IndVal)),
        bbBlock (bars.map DailyBar.close) = some bb →
        computeSymbol bars
          = some (smaBlock (bars.map DailyBar.close) ++ rsiBlock (bars.map DailyBar.close)
              ++ macdBlock (bars.map DailyBar.close) ++ bb
              ++ vwapBlock bars (bars.map DailyBar.close)
              ++ atrBlock bars (bars.map DailyBar.close)
              ++ volumeBlock (bars.map DailyBar.volume)
              ++ rangeBlock bars (bars.map DailyBar.close)
              ++ gapBlock bars ++ streakBlock (bars.map DailyBar.close))) := by
  refine ⟨?_, ?_, ?_, ?_, ?_, ?_, ?_, ?_, ?_⟩
  · intro bars
    induction bars with
    | nil => intro _; rfl
    | cons p rest ih =>
      intro h
      obtain ⟨s, bs⟩ := p
      unfold compute_indicators
      by_cases h5 : (bs.map DailyBar.close).length < 5
      · rw [if_pos h5]
        exact ih (fun q hq => h q (by simp [hq]))
      · rw [if_neg h5]
        have hbb : (bbBlock (bs.map DailyBar.close)).isSome = true :=
          bbBlock_isSome _ (h (s, bs) (by simp))
        rcases Option.isSome_iff_exists.mp hbb with ⟨bb, hbbeq⟩
        have hsym : computeSymbol bs
            = some (smaBlock (bs.map DailyBar.close) ++ rsiBlock (bs.map DailyBar.close)
                ++ macdBlock (bs.map DailyBar.close) ++ bb
                ++ vwapBlock bs (bs.map DailyBar.close)
                ++ atrBlock bs (bs.map DailyBar.close)
                ++ volumeBlock (bs.map DailyBar.volume)
                ++ rangeBlock bs (bs.map DailyBar.close)
                ++ gapBlock bs ++ streakBlock (bs.map DailyBar.close)) := by
          unfold computeSymbol
          simp only [hbbeq]
        rw [hsym]
        have hrest : (compute_indicators rest).isSome = true :=
          ih (fun q hq => h q (by simp [hq]))
        rcases Option.isSome_iff_exists.mp hrest with ⟨res, hreseq⟩
        rw [hreseq]
        by_cases he : (smaBlock (bs.map DailyBar.close) ++ rsiBlock (bs.map DailyBar.close)
            ++ macdBlock (bs.map DailyBar.close) ++ bb
            ++ vwapBlock bs (bs.map DailyBar.close)
            ++ atrBlock bs (bs.map DailyBar.close)
            ++ volumeBlock (bs.map DailyBar.volume)
            ++ rangeBlock bs (bs.map DailyBar.close)
            ++ gapBlock bs ++ streakBlock (bs.map DailyBar.close)) = [] <;>
          simp [he]
  · intro s bs rest h
    simp only [compute_indicators]
    rw [if_pos h]
  · intro s bs h
    have h5 : (bs.map DailyBar.close).length < 5 := by simp [h]
    simp only [compute_indicators]
    rw [if_pos h5]
  · intro bars closes h
    unfold vwapBlock
    by_cases h5 : 5 ≤ bars.length
    · rw [if_pos h5]
      simp only [h]
      norm_num
    · rw [if_neg h5]
  · intro volumes h
    unfold volumeBlock
    by_cases hg : 20 ≤ volumes.length ∧ volumes.getLast?.getD 0 > 0
    · rw [if_pos hg]
      have : ((takeLast 20 volumes).sum : ℚ) / 20 = 0 := by
        rw [show (((takeLast 20 volumes).sum : ℤ) : ℚ) = ((0 : ℤ) : ℚ) from by rw [h]]
        norm_num
      simp only [this]
      norm_num
    · rw [if_neg hg]
  · intro bars closes h
    unfold rangeBlock
    by_cases h20 : 20 ≤ bars.length
    · rw [if_pos h20]
      simp only [h]
      norm_num
    · rw [if_neg h20]
  · intro bars h
    unfold gapBlock
    by_cases h2 : 2 ≤ bars.length
    · rw [if_pos h2]
      simp only [h]
      norm_num
    · rw [if_neg h2]
  · intro bars closes h h15
    unfold atrBlock
    rw [if_pos h15]
    simp only [h]
    norm_num
  · intro bars bb hbb
    unfold computeSymbol
    simp only [hbb]

/-- Witness for C7's amended theorem: a 4-bar symbol yields an empty
mapping, and a nonconstant 20-bar history yields a mapping. -/
theorem indicators_guard_locality_witness :
    compute_indicators [("X", List.replicate 4 bbCexBar)] = some [] :=
  indicators_guard_locality.2.2.1 "X" (List.replicate 4 bbCexBar) (by simp)

/-! ### Supporting lemmas for the risk engine -/

theorem circuit_breaker_iff (rm : RiskManager) (portfolio : PortfolioSnapshot) :
    _circuit_breaker_triggered rm portfolio = true ↔ breakerProp rm portfolio := by
  unfold _circuit_breaker_triggered breakerProp
  split_ifs with h1 h2
  · simp [h1]
  · simp [h2]
  · simp [h1, h2]

theorem evaluateGo_length (portfolio : PortfolioSnapshot) (now : ℚ) :
    ∀ (ds : List TradeDecision) (rm : RiskManager),
      (evaluateGo rm portfolio now ds).1.length = ds.length := by
  intro ds
  induction ds with
  | nil => intro rm; rfl
  | cons d t ih => intro rm; simp [evaluateGo, ih]

theorem evaluateGo_get? (portfolio : PortfolioSnapshot) (now : ℚ) :
    ∀ (ds : List TradeDecision) (rm : RiskManager) (i : ℕ) (d : TradeDecision),
      ds.get? i = some d →
      ∃ rmi, (statesFrom portfolio now rm ds).get? i = some rmi
        ∧ (evaluateGo rm portfolio now ds).1.get? i
            = some (processDecision rmi portfolio now d).1 := by
  intro ds
  induction ds with
  | nil => intro rm i d h; simp at h
  | cons hd t ih =>
    intro rm i d h
    cases i with
    | zero =>
      simp only [List.get?_cons_zero, Option.some.injEq] at h
      subst h
      exact ⟨rm, by simp [statesFrom], by simp [evaluateGo]⟩
    | succ n =>
      simp only [List.get?_cons_succ] at h
      obtain ⟨rmi, h1, h2⟩ := ih (processDecision rm portfolio now hd).2 n d h
      exact ⟨rmi, by simpa [statesFrom] using h1, by simpa [evaluateGo] using h2⟩

theorem processDecision_fst_cases (rm : RiskManager) (portfolio : PortfolioSnapshot)
    (now : ℚ) (d : TradeDecision) :
    (processDecision rm portfolio now d).1 = d
      ∨ ∃ r, _check_decision rm d portfolio now = some r
          ∧ (processDecision rm portfolio now d).1 = vetoTransform d r := by
  unfold processDecision
  by_cases hh : d.action = Action.hold
  · left; simp [hh]
  · rcases hc : _check_decision rm d portfolio now with _ | r
    · left; simp [hh, hc]
    · right; exact ⟨r, rfl, by simp [hh, hc]⟩

/-- C1: `evaluate` returns a batch of the same length and order as the
input (with HOLD proposals passed through untouched, and every other
slot either the original proposal or its vetoed HOLD transform) unless,
at entry, `daily_pl_pct < -daily_loss_limit_pct` or
`trades_today ≥ max_trades_per_day`, in which case it returns the empty
list regardless of batch content. -/
theorem evaluate_batch_shape (rm : RiskManager) (ds : List TradeDecision)
    (portfolio : PortfolioSnapshot) (now : ℚ) :
    (breakerProp rm portfolio → (evaluate rm ds portfolio now).1 = [])
    ∧ (¬ breakerProp rm portfolio →
        (evaluate rm ds portfolio now).1.length = ds.length
        ∧ ∀ (i : ℕ) (d : TradeDecision), ds.get? i = some d →
            (d.action = Action.hold → (evaluate rm ds portfolio now).1.get? i = some d)
            ∧ ((evaluate rm ds portfolio now).1.get? i = some d
               ∨ ∃ r, (evaluate rm ds portfolio now).1.get? i = some (vetoTransform d r))) := by
  constructor
  · intro hb
    unfold evaluate
    rw [if_pos ((circuit_breaker_iff rm portfolio).mpr hb)]
  · intro hb
    have hbf : _circuit_breaker_triggered rm portfolio = false := by
      rcases h : _circuit_breaker_triggered rm portfolio with _ | _
      · rfl
      · exact absurd ((circuit_breaker_iff rm portfolio).mp h) hb
    unfold evaluate
    rw [if_neg (by simp [hbf])]
    refine ⟨evaluateGo_length portfolio now ds rm, ?_⟩
    intro i d hget
    obtain ⟨rmi, _, hstep⟩ := evaluateGo_get? portfolio now ds rm i d hget
    constructor
    · intro hhold
      rw [hstep]
      have : (processDecision rmi portfolio now d).1 = d := by
        unfold processDecision
        simp [hhold]
      rw [this]
    · rcases processDecision_fst_cases rmi portfolio now d with hcase | ⟨r, _, hcase⟩
      · left; rw [hstep, hcase]
      · right; exact ⟨r, by rw [hstep, hcase]⟩

/-- Witness for C1: a breaker-tripped portfolio empties the batch, and a
healthy one returns a same-length batch. -/
theorem evaluate_batch_shape_witness :
    (evaluate {} [wBuyDecision] wBreakerPortfolio 0).1 = []
    ∧ (evaluate {} [wHoldDecision] wHealthyPortfolio 0).1.length = 1 := by
  constructor
  · exact (evaluate_batch_shape {} _ _ 0).1 (Or.inl (by norm_num [wBreakerPortfolio]))
  · exact ((evaluate_batch_shape {} _ _ 0).2 (by
      unfold breakerProp wHealthyPortfolio
      norm_num)).1

theorem string_isPrefix_append (p s : String) : String.IsPrefix p (p ++ s) := by
  cases p with
  | mk d1 =>
    cases s with
    | mk d2 => exact ⟨d2, rfl⟩

/-- C4: a BUY or SELL proposal that fails a risk check (against the
manager state current when it is processed) comes back from `evaluate`
with action forced to HOLD, quantity cleared to `none`, and `risk_notes`
equal to `"VETOED: "` followed by the reason of the first failing check
(the check functions short-circuit in source order), so the notes begin
with the exact prefix `"VETOED: "`. -/
theorem veto_forces_hold (rm : RiskManager) (ds : List TradeDecision)
    (portfolio : PortfolioSnapshot) (now : ℚ) (i : ℕ) (d : TradeDecision)
    (rmi : RiskManager) (r : Reason)
    (hb : ¬ breakerProp rm portfolio)
    (hget : ds.get? i = some d)
    (hstate : (statesFrom portfolio now rm ds).get? i = some rmi)
    (hnh : d.action ≠ Action.hold)
    (hfail : _check_decision rmi d portfolio now = some r) :
    (evaluate rm ds portfolio now).1.get? i = some (vetoTransform d r)
    ∧ (vetoTransform d r).action = Action.hold
    ∧ (vetoTransform d r).quantity = none
    ∧ (vetoTransform d r).risk_notes = "VETOED: " ++ renderReason r
    ∧ String.IsPrefix "VETOED: " (vetoTransform d r).risk_notes := by
  have hbf : _circuit_breaker_triggered rm portfolio = false := by
    rcases h : _circuit_breaker_triggered rm portfolio with _ | _
    · rfl
    · exact absurd ((circuit_breaker_iff rm portfolio).mp h) hb
  obtain ⟨rmi', hst', hstep⟩ := evaluateGo_get? portfolio now ds rm i d hget
  rw [hstate] at hst'
  have hrmi : rmi = rmi' := Option.some.inj hst'
  subst hrmi
  have hproc : (processDecision rmi portfolio now d).1 = vetoTransform d r := by
    unfold processDecision
    rw [if_neg hnh]
    simp only [hfail]
  refine ⟨?_, rfl, rfl, rfl, string_isPrefix_append _ _⟩
  unfold evaluate
  rw [if_neg (by simp [hbf]), hstep, hproc]

/-- Witness for C4: a BUY with no quantity is vetoed with the
invalid-quantity reason and comes back as a HOLD. -/
theorem veto_forces_hold_witness :
    (evaluate {} [wInvalidBuy] wHealthyPortfolio 0).1.get? 0
      = some (vetoTransform wInvalidBuy Reason.invalidQuantity)
    ∧ (vetoTransform wInvalidBuy Reason.invalidQuantity).action = Action.hold
    ∧ (vetoTransform wInvalidBuy Reason.invalidQuantity).quantity = none := by
  have h := veto_forces_hold {} [wInvalidBuy] wHealthyPortfolio 0 0 wInvalidBuy {}
    Reason.invalidQuantity
    (by norm_num [breakerProp, wHealthyPortfolio]) rfl rfl
    (by simp [wInvalidBuy]) rfl
  exact ⟨h.1, h.2.1, h.2.2.1⟩

theorem processDecision_frame (rm : RiskManager) (portfolio : PortfolioSnapshot)
    (now : ℚ) (d : TradeDecision) :
    (processDecision rm portfolio now d).2.config = rm.config
    ∧ (processDecision rm portfolio now d).2.store = rm.store := by
  unfold processDecision
  by_cases hh : d.action = Action.hold
  · simp [hh]
  · rcases hc : _check_decision rm d portfolio now with _ | r
    · simp only [if_neg hh, hc]
      rcases d.action with _ | _ | _ <;> rcases hq : d.quantity with _ | q
      all_goals simp [hq]
      all_goals split_ifs <;> simp
    · simp [hh, hc]

theorem evaluateGo_frame (portfolio : PortfolioSnapshot) (now : ℚ) :
    ∀ (ds : List TradeDecision) (rm : RiskManager),
      (evaluateGo rm portfolio now ds).2.config = rm.config
      ∧ (evaluateGo rm portfolio now ds).2.store = rm.store := by
  intro ds
  induction ds with
  | nil => intro rm; exact ⟨rfl, rfl⟩
  | cons d t ih =>
    intro rm
    have h1 := processDecision_frame rm portfolio now d
    have h2 := ih (processDecision rm portfolio now d).2
    simp only [evaluateGo]
    exact ⟨h2.1.trans h1.1, h2.2.trans h1.2⟩

/-- C9: processing a decision touches the manager state only through
`trades_today` and `session_spent`: `config` and `store` are preserved
(by the whole batch too); a HOLD leaves the state unchanged, a vetoed
decision leaves the state unchanged, and a passing non-HOLD decision
increments `trades_today` by exactly 1, with `session_spent` increased
by `quantity × current_price` exactly when the decision is a BUY whose
symbol already has a position with positive current price (a SELL, a
first-time BUY, or a BUY priced at ≤ 0 leaves it unchanged). -/
theorem rm_state_frame (rm : RiskManager) (portfolio : PortfolioSnapshot)
    (now : ℚ) (d : TradeDecision) (ds : List TradeDecision) :
    ((processDecision rm portfolio now d).2.config = rm.config
      ∧ (processDecision rm portfolio now d).2.store = rm.store)
    ∧ (d.action = Action.hold → processDecision rm portfolio now d = (d, rm))
    ∧ (∀ r, d.action ≠ Action.hold → _check_decision rm d portfolio now = some r →
        (processDecision rm portfolio now d).2 = rm)
    ∧ (d.action ≠ Action.hold → _check_decision rm d portfolio now = none →
        (processDecision rm portfolio now d).2.trades_today = rm.trades_today + 1
        ∧ (d.action = Action.sell →
            (processDecision rm portfolio now d).2.session_spent = rm.session_spent)
        ∧ (∀ q p, d.action = Action.buy → d.quantity = some q → q ≠ 0 →
            findPosition portfolio.positions d.symbol = some p → 0 < p.current_price →
            (processDecision rm portfolio now d).2.session_spent
              = rm.session_spent + q * p.current_price)
        ∧ (d.action = Action.buy → findPosition portfolio.positions d.symbol = none →
            (processDecision rm portfolio now d).2.session_spent = rm.session_spent)
        ∧ (∀ p, d.action = Action.buy → findPosition portfolio.positions d.symbol = some p →
            p.current_price ≤ 0 →
            (processDecision rm portfolio now d).2.session_spent = rm.session_spent))
    ∧ ((evaluate rm ds portfolio now).2.config = rm.config
        ∧ (evaluate rm ds portfolio now).2.store = rm.store) := by
  refine ⟨processDecision_frame rm portfolio now d, ?_, ?_, ?_, ?_⟩
  · intro hh
    unfold processDecision
    simp [hh]
  · intro r hnh hc
    unfold processDecision
    simp [hnh, hc]
  · intro hnh hc
    refine ⟨?_, ?_, ?_, ?_, ?_⟩
    · unfold processDecision
      simp only [if_neg hnh, hc]
      rcases d.action with _ | _ | _ <;> rcases hq : d.quantity with _ | q
      all_goals simp [hq]
      all_goals split_ifs <;> simp
    · intro hs
      unfold processDecision
      simp [hnh, hc, hs]
    · intro q p hbuy hq hq0 hfind hp
      unfold processDecision
      simp [hnh, hc, hbuy, hq, hfind, hq0, hp]
    · intro hbuy hfind
      unfold processDecision
      simp only [if_neg hnh, hc, hbuy]
      rcases hq : d.quantity with _ | q
      · simp
      · simp only [hfind, Option.map_none, Option.getD_none]
        split_ifs <;> simp_all
    · intro p hbuy hfind hp
      unfold processDecision
      simp only [if_neg hnh, hc, hbuy]
      rcases hq : d.quantity with _ | q
      · simp
      · simp only [hfind, Option.map_some, Option.getD_some]
        split_ifs with h1 h2 <;> simp_all
        linarith
  · unfold evaluate
    split_ifs
    · exact ⟨rfl, rfl⟩
    · exact evaluateGo_frame portfolio now ds rm

/-- Witness for C9: an approved SELL increments `trades_today` and
leaves `session_spent` unchanged. -/
theorem rm_state_frame_witness :
    (processDecision {} wSellPortfolio 100 wSell5).2.trades_today = 1
    ∧ (processDecision {} wSellPortfolio 100 wSell5).2.session_spent = 0 := by
  have h := (rm_state_frame {} wSellPortfolio 100 wSell5 []).2.2.2.1
    (by simp [wSell5]) (by rfl)
  exact ⟨h.1, h.2.1 (by rfl)⟩

/-- C5: a SELL for a symbol with no held position is vetoed with the
no-position reason; with a held quantity of 5, requesting 6 is vetoed
with the over-quantity reason, while requesting exactly 5 passes both
position checks (the check reduces to the minimum-hold rule alone) and,
when that rule also passes, the decision is approved unchanged. -/
theorem sell_position_checks (rm : RiskManager) (d : TradeDecision)
    (portfolio : PortfolioSnapshot) (now : ℚ) :
    (findPosition portfolio.positions d.symbol = none →
      _check_sell rm d portfolio now = some (Reason.noPosition d.symbol))
    ∧ (∀ p, findPosition portfolio.positions d.symbol = some p → p.quantity = 5 →
        d.quantity = some 6 →
        _check_sell rm d portfolio now = some (Reason.sellQtyExceeds 6 5))
    ∧ (∀ p, findPosition portfolio.positions d.symbol = some p → p.quantity = 5 →
        d.quantity = some 5 →
        _check_sell rm d portfolio now = minHoldCheck rm d.symbol now
        ∧ (minHoldCheck rm d.symbol now = none → d.action = Action.sell →
            (processDecision rm portfolio now d).1 = d
            ∧ (processDecision rm portfolio now d).2.trades_today
                = rm.trades_today + 1)) := by
  refine ⟨?_, ?_, ?_⟩
  · intro hfind
    unfold _check_sell
    simp only [hfind]
  · intro p hfind hq5 hq6
    unfold _check_sell
    simp only [hfind, hq6, hq5]
    rw [if_pos (by norm_num)]
    rfl
  · intro p hfind hq5 hqd
    have hcs : _check_sell rm d portfolio now = minHoldCheck rm d.symbol now := by
      unfold _check_sell
      simp only [hfind, hqd, hq5]
      rw [if_neg (by norm_num)]
      rfl
    refine ⟨hcs, ?_⟩
    intro hmh hsell
    have hnone : _check_decision rm d portfolio now = none := by
      unfold _check_decision
      rw [if_neg (by simp [hsell]), if_pos hsell, hcs, hmh]
    constructor
    · unfold processDecision
      simp [hsell, hnone]
    · unfold processDecision
      simp [hsell, hnone]

/-- Witness for C5 on the concrete 5-share portfolio: selling 6 is
vetoed, selling 5 is approved. -/
theorem sell_position_checks_witness :
    _check_sell {} wSell6 wSellPortfolio 0 = some (Reason.sellQtyExceeds 6 5)
    ∧ _check_sell {} wSell5 wSellPortfolio 0 = none
    ∧ (processDecision {} wSellPortfolio 0 wSell5).1 = wSell5 := by
  have h6 := (sell_position_checks {} wSell6 wSellPortfolio 0).2.1 wPositionA
    rfl rfl rfl
  have h5 := (sell_position_checks {} wSell5 wSellPortfolio 0).2.2 wPositionA
    rfl rfl rfl
  exact ⟨h6, h5.1.trans rfl, (h5.2 rfl rfl).1⟩

theorem sessionBudgetCheck_shape (rm : RiskManager) (d : TradeDecision) (q : ℚ)
    (portfolio : PortfolioSnapshot) :
    sessionBudgetCheck rm d q portfolio = none
      ∨ ∃ c w, sessionBudgetCheck rm d q portfolio = some (Reason.sessionBudget c w) := by
  unfold sessionBudgetCheck
  rcases rm.config.session_budget with _ | budget
  · left; rfl
  · simp only []
    split_ifs
    · right; exact ⟨_, _, rfl⟩
    · left; rfl
    · left; rfl

theorem buyingPowerCheck_shape (rm : RiskManager) (portfolio : PortfolioSnapshot) :
    buyingPowerCheck rm portfolio = none
      ∨ ∃ b m, buyingPowerCheck rm portfolio = some (Reason.buyingPowerLow b m) := by
  unfold buyingPowerCheck
  simp only []
  split_ifs
  all_goals first | (left; rfl) | (right; exact ⟨_, _, rfl⟩)

theorem positionSizeCheck_shape (rm : RiskManager) (d : TradeDecision) (q : ℚ)
    (portfolio : PortfolioSnapshot) :
    positionSizeCheck rm d q portfolio = none
      ∨ ∃ a b c e, positionSizeCheck rm d q portfolio
          = some (Reason.positionTooLarge a b c e) := by
  unfold positionSizeCheck
  simp only []
  split_ifs
  all_goals first | (left; rfl) | (right; exact ⟨_, _, _, _, rfl⟩)

/-- C10: with no data store (`store = none`, the constructor default)
the wash-sale and minimum-hold checks are silently skipped: no BUY can
be vetoed with a wash-sale reason and no SELL with a minimum-hold
reason, while every other check still applies (the BUY check reduces to
the session-budget / buying-power / concentration chain, and the SELL
check to the position and quantity rules alone). -/
theorem no_store_skips_wash_and_hold (rm : RiskManager) (d : TradeDecision)
    (portfolio : PortfolioSnapshot) (now : ℚ) (h : rm.store = none) :
    washSaleCheck rm d = none
    ∧ minHoldCheck rm d.symbol now = none
    ∧ (∀ s loss date, _check_buy rm d portfolio ≠ some (Reason.washSale s loss date))
    ∧ (∀ hm ml, _check_sell rm d portfolio now ≠ some (Reason.minHold hm ml))
    ∧ (∀ q, d.quantity = some q → ¬ q ≤ 0 →
        _check_buy rm d portfolio
          = (sessionBudgetCheck rm d q portfolio).orElse fun _ =>
            (buyingPowerCheck rm portfolio).orElse fun _ =>
            positionSizeCheck rm d q portfolio)
    ∧ (∀ p, findPosition portfolio.positions d.symbol = some p →
        _check_sell rm d portfolio now
          = match d.quantity with
            | some q => if q ≠ 0 ∧ q > p.quantity
                then some (Reason.sellQtyExceeds q p.quantity) else none
            | none => none) := by
  have hwash : washSaleCheck rm d = none := by
    unfold washSaleCheck
    rw [h]
  have hhold : minHoldCheck rm d.symbol now = none := by
    unfold minHoldCheck
    rw [h]
  have hbuy : ∀ q, d.quantity = some q → ¬ q ≤ 0 →
      _check_buy rm d portfolio
        = (sessionBudgetCheck rm d q portfolio).orElse fun _ =>
          (buyingPowerCheck rm portfolio).orElse fun _ =>
          positionSizeCheck rm d q portfolio := by
    intro q hq hq0
    unfold _check_buy
    simp only [hq]
    rw [if_neg hq0, hwash]
    rfl
  have hsell : ∀ p, findPosition portfolio.positions d.symbol = some p →
      _check_sell rm d portfolio now
        = match d.quantity with
          | some q => if q ≠ 0 ∧ q > p.quantity
              then some (Reason.sellQtyExceeds q p.quantity) else none
          | none => none := by
    intro p hfind
    unfold _check_sell
    simp only [hfind, hhold]
    rcases d.quantity with _ | q
    · rfl
    · simp only []
      split_ifs <;> rfl
  refine ⟨hwash, hhold, ?_, ?_, hbuy, hsell⟩
  · intro s loss date
    unfold _check_buy
    rcases hq : d.quantity with _ | q
    · simp
    · simp only []
      split_ifs with h0
      · simp
      · rw [hwash]
        have hchain :
            (Option.orElse none fun _ =>
              (sessionBudgetCheck rm d q portfolio).orElse fun _ =>
              (buyingPowerCheck rm portfolio).orElse fun _ =>
              positionSizeCheck rm d q portfolio)
            = (sessionBudgetCheck rm d q portfolio).orElse fun _ =>
              (buyingPowerCheck rm portfolio).orElse fun _ =>
              positionSizeCheck rm d q portfolio := rfl
        rw [hchain]
        rcases sessionBudgetCheck_shape rm d q portfolio with hsb | ⟨c, w, hsb⟩
        · rw [hsb]
          rcases buyingPowerCheck_shape rm portfolio with hbp | ⟨b, m, hbp⟩
          · rw [show (Option.orElse none fun _ =>
                (buyingPowerCheck rm portfolio).orElse fun _ =>
                positionSizeCheck rm d q portfolio)
                = (buyingPowerCheck rm portfolio).orElse fun _ =>
                  positionSizeCheck rm d q portfolio from rfl, hbp]
            rcases positionSizeCheck_shape rm d q portfolio with hps | ⟨a, b, c, e, hps⟩
            · simp [hps]
            · simp [hps]
          · simp [hbp]
        · simp [hsb]
  · intro hm ml
    unfold _check_sell
    rcases hfind : findPosition portfolio.positions d.symbol with _ | p
    · simp
    · simp only [hhold]
      rcases d.quantity with _ | q
      · simp
      · simp only []
        split_ifs <;> simp

/-- Witness for C10: with the default store-less manager, a BUY with a
valid quantity is checked by the non-store rules (here vetoed on buying
power, not on wash sale), and a SELL with no position is vetoed on the
position rule, not on minimum hold. -/
theorem no_store_skips_wash_and_hold_witness :
    washSaleCheck {} wBrokeBuy = none
    ∧ (∀ s loss date,
        _check_buy {} wBrokeBuy wBrokePortfolio ≠ some (Reason.washSale s loss date))
    ∧ (∀ hm ml,
        _check_sell {} wBrokeBuy wBrokePortfolio 0 ≠ some (Reason.minHold hm ml)) := by
  have h := no_store_skips_wash_and_hold {} wBrokeBuy wBrokePortfolio 0 rfl
  exact ⟨h.1, h.2.2.1, h.2.2.2.1⟩

/-- C2 counterexample: with **no existing position** the reference price
is 0, so the concentration check (and hence the low-price ceiling) is
skipped entirely and the BUY is approved unchanged — the claim says it
is vetoed.  The quantity does reach 4% of the $100,000 equity at $9. -/
theorem concentration_no_position_cex :
    (9 : ℚ) < ({} : RiskConfig).low_price_threshold
    ∧ (4000 / 9 : ℚ) * 9 / c2NoPosPortfolio.equity * 100 = 4
    ∧ _check_buy {} c2BuyDecision c2NoPosPortfolio = none
    ∧ (processDecision {} c2NoPosPortfolio 0 c2BuyDecision).1 = c2BuyDecision
    ∧ (processDecision {} c2NoPosPortfolio 0 c2BuyDecision).1.action = Action.buy := by
  have hchk : _check_buy {} c2BuyDecision c2NoPosPortfolio = none := by
    unfold _check_buy washSaleCheck sessionBudgetCheck buyingPowerCheck
      positionSizeCheck findPosition
    norm_num [c2BuyDecision, c2NoPosPortfolio, Option.orElse]
  have hcd : _check_decision {} c2BuyDecision c2NoPosPortfolio 0 = none := by
    unfold _check_decision
    rw [if_pos (show c2BuyDecision.action = Action.buy from rfl)]
    exact hchk
  have hproc : (processDecision {} c2NoPosPortfolio 0 c2BuyDecision).1 = c2BuyDecision := by
    unfold processDecision
    rw [if_neg (by decide)]
    simp only [hcd]
  refine ⟨by norm_num, by norm_num [c2NoPosPortfolio], hchk, hproc, ?_⟩
  rw [hproc]
  rfl

/-- C2 amended: the veto fires only when a reference price exists — for
a $100,000-equity portfolio that already **holds a position** in the
non-crypto symbol at a current price of $9 (below the $10 threshold), a
BUY bringing the prospective position to 4% of equity is vetoed by the
concentration rule under the low-price 3% ceiling (not the standard
15%); with no existing position the check is skipped (see the
counterexample). -/
theorem low_price_concentration_veto (rm : RiskManager) (d : TradeDecision)
    (portfolio : PortfolioSnapshot) (p : Position) (q : ℚ)
    (hcfg : rm.config = {}) (hstore : rm.store = none)
    (heq : portfolio.equity = 100000)
    (hfind : findPosition portfolio.positions d.symbol = some p)
    (hprice : p.current_price = 9)
    (hq : d.quantity = some q) (hqpos : 0 < q)
    (hnc : d.symbol.data.contains '/' = false)
    (hbp : 20 < portfolio.buying_power / portfolio.equity * 100)
    (hpct : (p.market_value + q * 9) / 100000 * 100 = 4) :
    _check_buy rm d portfolio = some (Reason.positionTooLarge true false 4 3) := by
  have hw : washSaleCheck rm d = none := by
    unfold washSaleCheck
    rw [hstore]
  have hsb : sessionBudgetCheck rm d q portfolio = none := by
    unfold sessionBudgetCheck
    rw [hcfg]
  have hbpc : buyingPowerCheck rm portfolio = none := by
    have hbp' : 20 < portfolio.buying_power / 100000 * 100 := by
      rw [heq] at hbp
      exact hbp
    unfold buyingPowerCheck
    simp only [hcfg, heq]
    rw [if_pos (by norm_num : ¬ (100000 : ℚ) = 0)]
    rw [if_neg (not_le.mpr hbp')]
  have hps : positionSizeCheck rm d q portfolio
      = some (Reason.positionTooLarge true false 4 3) := by
    have hpct' : p.market_value + q * 9 = 4000 := by
      have hsplit : (p.market_value + q * 9) / 100000 * 100
          = (p.market_value + q * 9) / 1000 := by
        ring
      rw [hsplit] at hpct
      field_simp at hpct
      linarith
    unfold positionSizeCheck
    simp only [hfind, hcfg, hnc, hprice, heq, Option.map_some', Option.getD_some]
    rw [if_pos (by norm_num : (9 : ℚ) > 0)]
    rw [show decide ((9 : ℚ) < 10) = true from decide_eq_true (by norm_num)]
    rw [hpct']
    norm_num
  unfold _check_buy
  simp only [hq]
  rw [if_neg (by linarith), hw]
  show (sessionBudgetCheck rm d q portfolio).orElse _ = _
  rw [hsb]
  show (buyingPowerCheck rm portfolio).orElse _ = _
  rw [hbpc]
  show positionSizeCheck rm d q portfolio = _
  exact hps

/-- Witness for C2's amended theorem at the concrete held-position input. -/
theorem low_price_concentration_veto_witness :
    _check_buy {} c2HeldBuyDecision c2HeldPortfolio
      = some (Reason.positionTooLarge true false 4 3) := by
  refine low_price_concentration_veto {} c2HeldBuyDecision c2HeldPortfolio
    c2HeldPosition (1300 / 3) rfl rfl rfl rfl rfl rfl (by norm_num) rfl
    (by norm_num [c2HeldPortfolio]) (by norm_num [c2HeldPosition])

end AutoInvestor
